import Mathlib

/-!
Shallow embedding of the operative code of the repository: the notebook
`02_market_and_fundamental_data/fundamental_data_edgar_xbrl.ipynb`.

The notebook contains three pieces of executable logic:

* the period enumerator (`filing_periods`, built from `past_years` and the
  current year/quarter of `today`),
* the archive fetcher `fetch_filing_data`, a loop whose body downloads
  `<SEC_URL><FSN_PATH><yr>q<qtr>_notes.zip`, creates `data/<yr>_<qtr>/source`
  and extracts every archive entry whose file does not already exist, and
* the bucket uploaders `upload_folder_to_s3` / `parallel_upload_folder_to_s3`
  which walk a directory tree with `os.walk` and upload each file under the
  key `file_path[2:]`.

Python strings are embedded as `List Char` (`Str`).  The external
collaborators are embedded as oracles, following the spec's scoping of the
HTTP client, the ZIP decoder, `os.walk` and the S3 client as opaque
capabilities: the pair "fetch bytes for a URL" + "decode them as an archive"
is an oracle `net : Str → Option Archive` (`none` is the `BadZipFile` case),
`os.walk` is an oracle `osWalk : Str → List (Str × List Str)` returning the
`(root, files)` pairs in walk order, and the S3 client's per-call outcome is
an oracle `ok : UploadCall → Bool` (only its printed error message is
observable, since `upload_file_to_s3` swallows every exception).
-/

/-- Python strings modelled as lists of characters. -/
abbrev Str := List Char

/-- Decimal rendering of a natural number, as Python's f-string renders a
nonnegative `int`. -/
def natStr (n : Nat) : Str := (toString n).data

/-- `SEC_URL = 'https://www.sec.gov/'`. -/
def SEC_URL : Str := ("https://www.sec.gov/").data

/-- `FSN_PATH = 'files/dera/data/financial-statement-and-notes-data-sets/'`. -/
def FSN_PATH : Str := ("files/dera/data/financial-statement-and-notes-data-sets/").data

/-- `data_path = Path('data')`. -/
def data_path : Str := ("data").data

/-- The path separator inserted by `pathlib` joins and by `root + "/" + file`. -/
def slash : Str := ("/").data

/-- `filing = f'{yr}q{qtr}_notes.zip'`. -/
def filingName (yr qtr : Nat) : Str :=
  natStr yr ++ ("q").data ++ natStr qtr ++ ("_notes.zip").data

/-- `url = SEC_URL + FSN_PATH + filing`. -/
def urlOf (yr qtr : Nat) : Str := SEC_URL ++ FSN_PATH ++ filingName yr qtr

/-- `path = data_path / f'{yr}_{qtr}' / 'source'`. -/
def quarterDir (yr qtr : Nat) : Str :=
  data_path ++ slash ++ natStr yr ++ ("_").data ++ natStr qtr ++ slash ++ ("source").data

/-- The per-period progress print `f'{yr}-Q{qtr}'`. -/
def progressMsg (yr qtr : Nat) : Str := natStr yr ++ ("-Q").data ++ natStr qtr

/-- The per-period print `'url = ' + url`. -/
def urlLine (yr qtr : Nat) : Str := ("url = ").data ++ urlOf yr qtr

/-- The text of the `BadZipFile` exception printed by `print(e)`, as recorded
in the notebook's own output. -/
def notZipMsg : Str := ("File is not a zip file").data

/-- The print `'got bad zip file'` in the `except BadZipFile` handler. -/
def badZipMsg : Str := ("got bad zip file").data

/-- A decoded ZIP archive: its entries in `namelist()` order, each with the
byte content that `zip_file.open(file).readlines()` writes back verbatim. -/
abbrev Archive := List (Str × Str)

/-- The filesystem state touched by the fetcher: the set of directories
created so far (a `mkdir(parents=True)` is recorded as its full path) and the
files on disk as an ordered association list `path ↦ content`. -/
structure FetchState where
  dirs : List Str
  files : List (Str × Str)
  deriving DecidableEq

/-- The paths of the files that exist, i.e. what `local_file.exists()` can
see. -/
def fileNames (s : FetchState) : List Str := s.files.map Prod.fst

/-- `if not path.exists(): path.mkdir(exist_ok=True, parents=True)`. -/
def mkdirParents (s : FetchState) (d : Str) : FetchState :=
  if d ∈ s.dirs then s else { s with dirs := d :: s.dirs }

/-- The body of the extraction loop: `local_file = path / file`;
`if local_file.exists(): continue`; otherwise open the file and write the
entry's lines. -/
def extractEntry (dir : Str) (s : FetchState) (e : Str × Str) : FetchState :=
  if dir ++ slash ++ e.1 ∈ fileNames s then s
  else { s with files := s.files ++ [(dir ++ slash ++ e.1, e.2)] }

/-- One iteration of the `fetch_filing_data` loop for the period
`(yr, qtr)`: print the progress marker, ensure the quarter directory exists,
print the URL, retrieve and decode the archive, and either extract every
entry not already present (`some entries`) or print the `BadZipFile` error
and continue (`none`).  Returns the new filesystem state and the lines
printed during the iteration, in order. -/
def fetchPeriod (net : Str → Option Archive) (s : FetchState) (yr qtr : Nat) :
    FetchState × List Str :=
  let dir := quarterDir yr qtr
  let s1 := mkdirParents s dir
  match net (urlOf yr qtr) with
  | some entries =>
    (entries.foldl (extractEntry dir) s1, [progressMsg yr qtr, urlLine yr qtr])
  | none =>
    (s1, [progressMsg yr qtr, urlLine yr qtr, notZipMsg, badZipMsg])

/-- Everything a run of `fetch_filing_data` leaves behind: the filesystem
state, the printed output, and the value returned to the caller — the Python
function has no `return` statement, so the caller receives `None`, embedded
as `Unit`. -/
structure FetchRun where
  state : FetchState
  output : List Str
  value : Unit
  deriving DecidableEq

/-- `fetch_filing_data(filing_periods)`: iterate `fetchPeriod` over the given
periods in order, accumulating printed output. -/
def fetch_filing_data (net : Str → Option Archive) :
    List (Nat × Nat) → FetchState → FetchRun
  | [], s => { state := s, output := [], value := () }
  | p :: ps, s =>
    let r := fetchPeriod net s p.1 p.2
    let rest := fetch_filing_data net ps r.1
    { state := rest.state, output := r.2 ++ rest.output, value := () }

/-- `past_years = range(2014, this_year)`, generalised over the hardcoded
start year: `range(startYear, thisYear)`. -/
def past_years (startYear thisYear : Nat) : List Nat :=
  List.range' startYear (thisYear - startYear)

/-- The period enumerator:
`filing_periods = [(y, q) for y in past_years for q in range(1, 5)]` followed
by `filing_periods.extend([(this_year, q) for q in range(1, this_quarter + 1)])`. -/
def filing_periods (startYear thisYear thisQuarter : Nat) : List (Nat × Nat) :=
  ((past_years startYear thisYear).flatMap fun y =>
    (List.range' 1 4).map fun q => (y, q))
    ++ ((List.range' 1 thisQuarter).map fun q => (thisYear, q))

/-- `pd.Timestamp(...).quarter`, the calendar quarter of a month
(`(month + 2) // 3`). -/
def quarterOfMonth (m : Nat) : Nat := (m + 2) / 3

/-- Strict lexicographic order on `(year, quarter)` pairs. -/
def periodLt (a b : Nat × Nat) : Prop :=
  a.1 < b.1 ∨ (a.1 = b.1 ∧ a.2 < b.2)

/-- One attempted S3 upload: the arguments
`s3_client.upload_file(file_name, bucket, key)`. -/
structure UploadCall where
  file : Str
  bucket : Str
  key : Str
  deriving DecidableEq

/-- The call `upload_file_to_s3(file_path, bucket, file_path[2:], s3_client)`
built by both uploaders for a walked file path. -/
def uploadCallFor (bucket fp : Str) : UploadCall :=
  { file := fp, bucket := bucket, key := fp.drop 2 }

/-- The error print of `upload_file_to_s3`:
`'Error when uploading file: ' + file_name`. -/
def uploadErrMsg (f : Str) : Str := ("Error when uploading file: ").data ++ f

/-- The driver print `print("uploading file: ", file_path)` (the default
separator adds the second space). -/
def uploadingMsg (f : Str) : Str := ("uploading file:  ").data ++ f

/-- The observable behaviour of `upload_file_to_s3` given the client's
outcome for the call: the `try` swallows every exception, so only the error
print survives; the function returns `None` either way. -/
def upload_file_log (ok : UploadCall → Bool) (c : UploadCall) : List Str :=
  if ok c then [] else [uploadErrMsg c.file]

/-- The directory both uploaders actually walk: the hardcoded literal
`"./data"` in `os.walk("./data")`. -/
def data_walk_root : Str := ("./data").data

/-- The file paths produced by the walk loop, in order:
`file_path = root + "/" + file` for each `root, dirs, files` triple and each
`file in files`. -/
def walk_file_paths (osWalk : Str → List (Str × List Str)) : List Str :=
  (osWalk data_walk_root).flatMap fun rf => rf.2.map fun f => rf.1 ++ slash ++ f

/-- Everything a run of `upload_folder_to_s3` leaves behind: the attempted
upload calls in order, the printed output, and the `None` return value. -/
structure UploadRun where
  calls : List UploadCall
  output : List Str
  value : Unit
  deriving DecidableEq

/-- `upload_folder_to_s3(folder, bucket, s3_client)`: walks `"./data"`
(the `folder` argument is never read), and for each walked file first calls
`upload_file_to_s3(file_path, bucket, file_path[2:], s3_client)` and then
prints `"uploading file: "`. -/
def upload_folder_to_s3 (osWalk : Str → List (Str × List Str))
    (ok : UploadCall → Bool) (folder bucket : Str) : UploadRun :=
  let calls := (osWalk data_walk_root).flatMap fun rf =>
    rf.2.map fun file => uploadCallFor bucket (rf.1 ++ slash ++ file)
  { calls := calls
    output := calls.flatMap fun c => upload_file_log ok c ++ [uploadingMsg c.file]
    value := () }

/-- An invocation of the per-file upload inside
`parallel_upload_folder_to_s3`: either the synchronous call made by the
driver loop itself, or the task handed to `executor.submit` (whose `future`
is never read). -/
inductive UploadAction where
  | direct (c : UploadCall)
  | submitted (c : UploadCall)
  deriving DecidableEq

/-- Everything a run of `parallel_upload_folder_to_s3` leaves behind: the
worker-pool bound `max_workers`, the upload invocations issued by the driver
loop in order, the driver's printed output, and the `None` return value.
Task results are never waited for or collected, so they appear nowhere. -/
structure PoolRun where
  workers : Nat
  actions : List UploadAction
  output : List Str
  value : Unit
  deriving DecidableEq

/-- `parallel_upload_folder_to_s3(folder, bucket, s3_client)`: opens
`ThreadPoolExecutor(max_workers=10)`, walks `"./data"` (again ignoring
`folder`), and for each walked file prints `"uploading file: "`, calls
`upload_file_to_s3` synchronously, and then submits the same call to the
executor. -/
def parallel_upload_folder_to_s3 (osWalk : Str → List (Str × List Str))
    (ok : UploadCall → Bool) (folder bucket : Str) : PoolRun :=
  { workers := 10
    actions := (osWalk data_walk_root).flatMap fun rf =>
      rf.2.flatMap fun file =>
        [UploadAction.direct (uploadCallFor bucket (rf.1 ++ slash ++ file)),
         UploadAction.submitted (uploadCallFor bucket (rf.1 ++ slash ++ file))]
    output := (osWalk data_walk_root).flatMap fun rf =>
      rf.2.flatMap fun file =>
        uploadingMsg (rf.1 ++ slash ++ file)
          :: upload_file_log ok (uploadCallFor bucket (rf.1 ++ slash ++ file))
    value := () }

/-- The calls handed to `executor.submit`, extracted from an invocation
trace. -/
def submittedCalls (l : List UploadAction) : List UploadCall :=
  l.filterMap fun a =>
    match a with
    | .direct _ => none
    | .submitted c => some c

/-- An empty filesystem, for concrete runs. -/
def initState : FetchState := { dirs := [], files := [] }

/-- A small concrete archive used by concrete runs. -/
def demoArchive : Archive := [((("sub.tsv").data), (("sub-data").data))]

/-- A network oracle on which every retrieval decodes to `demoArchive`. -/
def netAllOk : Str → Option Archive := fun _ => some demoArchive

/-- A network oracle on which every retrieval fails to decode. -/
def netNone : Str → Option Archive := fun _ => none

/-- A network oracle on which exactly the 2020-Q1 archive fails to decode. -/
def netFail2020q1 : Str → Option Archive := fun u =>
  if u = urlOf 2020 1 then none else some demoArchive

/-- A concrete `os.walk` oracle: the tree under `./other` holds `a.tsv`, the
tree under `./data` holds `b.tsv`. -/
def osWalkDemo : Str → List (Str × List Str) := fun top =>
  if top = ("./other").data then [((("./other").data), [(("a.tsv").data)])]
  else if top = ("./data").data then [((("./data").data), [(("b.tsv").data)])]
  else []

/-- A concrete state whose directory `d` already holds a file `sub.tsv`. -/
def demoState : FetchState :=
  { dirs := [(("d").data)], files := [((("d/sub.tsv").data), (("x").data))] }

/-! ### Helper lemmas about the fetcher's state operations -/

theorem extractEntry_dirs (dir : Str) (s : FetchState) (e : Str × Str) :
    (extractEntry dir s e).dirs = s.dirs := by
  unfold extractEntry
  split <;> rfl

theorem foldl_extract_dirs (dir : Str) (l : Archive) (s : FetchState) :
    (l.foldl (extractEntry dir) s).dirs = s.dirs := by
  induction l generalizing s with
  | nil => rfl
  | cons e l ih => rw [List.foldl_cons, ih, extractEntry_dirs]

theorem mkdirParents_files (s : FetchState) (d : Str) :
    (mkdirParents s d).files = s.files := by
  unfold mkdirParents
  split <;> rfl

theorem mem_dirs_mkdirParents (s : FetchState) (d : Str) :
    d ∈ (mkdirParents s d).dirs := by
  unfold mkdirParents
  split
  · assumption
  · exact List.mem_cons_self _ _

theorem mkdirParents_noop (s : FetchState) (d : Str) (h : d ∈ s.dirs) :
    mkdirParents s d = s := by
  unfold mkdirParents
  exact if_pos h

theorem extractEntry_skip (dir : Str) (s : FetchState) (e : Str × Str)
    (h : dir ++ slash ++ e.1 ∈ fileNames s) : extractEntry dir s e = s := by
  unfold extractEntry
  exact if_pos h

theorem mem_fileNames_extract (dir : Str) (s : FetchState) (e : Str × Str)
    (p : Str) (h : p ∈ fileNames s) : p ∈ fileNames (extractEntry dir s e) := by
  unfold extractEntry
  split
  · exact h
  · simp only [fileNames, List.map_append, List.mem_append]
    exact Or.inl h

theorem entry_mem_after_extract (dir : Str) (s : FetchState) (e : Str × Str) :
    dir ++ slash ++ e.1 ∈ fileNames (extractEntry dir s e) := by
  unfold extractEntry
  split
  · assumption
  · simp [fileNames]

theorem foldl_extract_mono (dir : Str) (l : Archive) (s : FetchState) (p : Str)
    (h : p ∈ fileNames s) : p ∈ fileNames (l.foldl (extractEntry dir) s) := by
  induction l generalizing s with
  | nil => exact h
  | cons e l ih => exact ih _ (mem_fileNames_extract dir s e p h)

theorem foldl_extract_all (dir : Str) (l : Archive) (s : FetchState)
    (e : Str × Str) (he : e ∈ l) :
    dir ++ slash ++ e.1 ∈ fileNames (l.foldl (extractEntry dir) s) := by
  induction l generalizing s with
  | nil => cases he
  | cons e' l ih =>
    rw [List.foldl_cons]
    rcases List.mem_cons.mp he with h | h
    · subst h
      exact foldl_extract_mono dir l _ _ (entry_mem_after_extract dir s e)
    · exact ih _ h

theorem foldl_extract_noop (dir : Str) (l : Archive) (s : FetchState)
    (h : ∀ e ∈ l, dir ++ slash ++ e.1 ∈ fileNames s) :
    l.foldl (extractEntry dir) s = s := by
  induction l with
  | nil => rfl
  | cons e l ih =>
    rw [List.foldl_cons, extractEntry_skip dir s e (h e (List.mem_cons_self _ _))]
    exact ih fun e' he' => h e' (List.mem_cons_of_mem _ he')

theorem fetchPeriod_dirs_mem (net : Str → Option Archive) (s : FetchState)
    (yr qtr : Nat) : quarterDir yr qtr ∈ (fetchPeriod net s yr qtr).1.dirs := by
  unfold fetchPeriod
  cases net (urlOf yr qtr) with
  | some entries =>
    simpa [foldl_extract_dirs] using mem_dirs_mkdirParents s (quarterDir yr qtr)
  | none => exact mem_dirs_mkdirParents s (quarterDir yr qtr)

theorem fetchPeriod_fail_files (net : Str → Option Archive) (s : FetchState)
    (yr qtr : Nat) (h : net (urlOf yr qtr) = none) :
    (fetchPeriod net s yr qtr).1.files = s.files := by
  unfold fetchPeriod
  rw [h]
  exact mkdirParents_files s _

theorem extractEntry_files_congr (dir : Str) (s t : FetchState) (e : Str × Str)
    (h : s.files = t.files) :
    (extractEntry dir s e).files = (extractEntry dir t e).files := by
  unfold extractEntry fileNames
  rw [h]
  split
  · exact h
  · simp [h]

theorem foldl_extract_files_congr (dir : Str) (l : Archive) (s t : FetchState)
    (h : s.files = t.files) :
    (l.foldl (extractEntry dir) s).files = (l.foldl (extractEntry dir) t).files := by
  induction l generalizing s t with
  | nil => exact h
  | cons e l ih =>
    rw [List.foldl_cons, List.foldl_cons]
    exact ih _ _ (extractEntry_files_congr dir s t e h)

theorem fetchPeriod_files_congr (net : Str → Option Archive) (s t : FetchState)
    (yr qtr : Nat) (h : s.files = t.files) :
    (fetchPeriod net s yr qtr).1.files = (fetchPeriod net t yr qtr).1.files := by
  unfold fetchPeriod
  cases net (urlOf yr qtr) with
  | some entries =>
    exact foldl_extract_files_congr _ entries _ _
      (by rw [mkdirParents_files, mkdirParents_files, h])
  | none => rw [mkdirParents_files, mkdirParents_files, h]

theorem fetch_batch_files_congr (net : Str → Option Archive)
    (ps : List (Nat × Nat)) (s t : FetchState) (h : s.files = t.files) :
    (fetch_filing_data net ps s).state.files
      = (fetch_filing_data net ps t).state.files := by
  induction ps generalizing s t with
  | nil => exact h
  | cons p ps ih =>
    exact ih _ _ (fetchPeriod_files_congr net s t p.1 p.2 h)

theorem fetch_batch_append (net : Str → Option Archive)
    (l₁ l₂ : List (Nat × Nat)) (s : FetchState) :
    (fetch_filing_data net (l₁ ++ l₂) s).state
      = (fetch_filing_data net l₂ (fetch_filing_data net l₁ s).state).state := by
  induction l₁ generalizing s with
  | nil => rfl
  | cons p l₁ ih =>
    rw [List.cons_append]
    exact ih (fetchPeriod net s p.1 p.2).1

theorem fetchPeriod_progress_mem (net : Str → Option Archive) (s : FetchState)
    (yr qtr : Nat) : progressMsg yr qtr ∈ (fetchPeriod net s yr qtr).2 := by
  unfold fetchPeriod
  cases net (urlOf yr qtr) <;> simp

theorem progress_mem_batch (net : Str → Option Archive)
    (ps : List (Nat × Nat)) (s : FetchState) (p : Nat × Nat) (h : p ∈ ps) :
    progressMsg p.1 p.2 ∈ (fetch_filing_data net ps s).output := by
  induction ps generalizing s with
  | nil => cases h
  | cons q ps ih =>
    show progressMsg p.1 p.2 ∈ (fetchPeriod net s q.1 q.2).2
      ++ (fetch_filing_data net ps (fetchPeriod net s q.1 q.2).1).output
    rcases List.mem_cons.mp h with h' | h'
    · subst h'
      exact List.mem_append_left _ (fetchPeriod_progress_mem net s p.1 p.2)
    · exact List.mem_append_right _ (ih _ h')

/-! ### Helper lemmas about the period enumerator -/

theorem periodLt_ne (a b : Nat × Nat) (h : periodLt a b) : a ≠ b := by
  rcases h with h | ⟨h1, h2⟩ <;> intro hab <;> subst hab <;> omega

theorem mem_year_block (s n : Nat) (p : Nat × Nat) :
    (p ∈ (List.range' s n).flatMap fun y => (List.range' 1 4).map fun q => (y, q))
      ↔ (s ≤ p.1 ∧ p.1 < s + n ∧ 1 ≤ p.2 ∧ p.2 < 5) := by
  simp only [List.mem_flatMap, List.mem_map, List.mem_range'_1]
  constructor
  · rintro ⟨y, ⟨hy1, hy2⟩, q, ⟨hq1, hq2⟩, hp⟩
    subst hp
    exact ⟨hy1, hy2, hq1, hq2⟩
  · rintro ⟨h1, h2, h3, h4⟩
    exact ⟨p.1, ⟨h1, h2⟩, p.2, ⟨h3, h4⟩, rfl⟩

theorem pairwise_year_block (n : Nat) : ∀ s : Nat,
    (((List.range' s n).flatMap fun y =>
      (List.range' 1 4).map fun q => (y, q)).Pairwise periodLt) := by
  induction n with
  | zero => intro s; simp
  | succ n ih =>
    intro s
    rw [List.range'_succ, List.flatMap_cons]
    refine List.pairwise_append.mpr ⟨?_, ih (s + 1), ?_⟩
    · have h4 : List.range' 1 4 = [1, 2, 3, 4] := rfl
      rw [h4]
      simp [List.pairwise_cons, periodLt]
    · intro a ha b hb
      simp only [List.mem_map, List.mem_range'_1] at ha
      obtain ⟨q, _, hq⟩ := ha
      have hb' := (mem_year_block (s + 1) n b).mp hb
      subst hq
      exact Or.inl (by omega)

theorem pairwise_current_year (ty tq : Nat) :
    (((List.range' 1 tq).map fun q => (ty, q)).Pairwise periodLt) := by
  refine List.Pairwise.map _ (fun a b h => ?_) (List.pairwise_lt_range' 1 tq)
  exact Or.inr ⟨rfl, h⟩

/-! ### Helper lemmas about the uploaders -/

theorem nested_flatMap_actions (l : List (Str × List Str)) (bucket : Str) :
    (l.flatMap fun rf => rf.2.flatMap fun file =>
        [UploadAction.direct (uploadCallFor bucket (rf.1 ++ slash ++ file)),
         UploadAction.submitted (uploadCallFor bucket (rf.1 ++ slash ++ file))])
      = (l.flatMap fun rf => rf.2.map fun f => rf.1 ++ slash ++ f).flatMap
          fun fp => [UploadAction.direct (uploadCallFor bucket fp),
                     UploadAction.submitted (uploadCallFor bucket fp)] := by
  induction l with
  | nil => rfl
  | cons rf l ih =>
    simp only [List.flatMap_cons, List.flatMap_append, List.flatMap_map]
    rw [ih]

theorem parallel_actions_eq (osWalk : Str → List (Str × List Str))
    (ok : UploadCall → Bool) (folder bucket : Str) :
    (parallel_upload_folder_to_s3 osWalk ok folder bucket).actions
      = (walk_file_paths osWalk).flatMap fun fp =>
          [UploadAction.direct (uploadCallFor bucket fp),
           UploadAction.submitted (uploadCallFor bucket fp)] := by
  exact nested_flatMap_actions (osWalk data_walk_root) bucket

theorem submittedCalls_pairs (l : List Str) (bucket : Str) :
    submittedCalls (l.flatMap fun fp =>
        [UploadAction.direct (uploadCallFor bucket fp),
         UploadAction.submitted (uploadCallFor bucket fp)])
      = l.map (uploadCallFor bucket) := by
  induction l with
  | nil => rfl
  | cons fp l ih =>
    simp only [List.flatMap_cons, submittedCalls, List.filterMap_append, List.map_cons]
    simp only [submittedCalls] at ih
    rw [ih]
    rfl

/-! ### Claim theorems -/

/-- C1: Running the archive fetcher twice against the same period with the
same archive contents leaves the quarter directory's file set unchanged after
the second run — the second run leaves the full filesystem state exactly as
the first run left it — and, for every archive entry whose name already
exists as a file in the directory, the extraction step skips the entry and
leaves the state (hence the existing file's content) untouched, without
consulting the remote entry's content. -/
theorem fetchPeriod_idempotent (net : Str → Option Archive) (s : FetchState)
    (yr qtr : Nat) :
    (fetchPeriod net (fetchPeriod net s yr qtr).1 yr qtr).1
        = (fetchPeriod net s yr qtr).1
      ∧ ∀ (t : FetchState) (dir n c : Str),
          dir ++ slash ++ n ∈ fileNames t → extractEntry dir t (n, c) = t := by
  constructor
  · cases hnet : net (urlOf yr qtr) with
    | none =>
      simp only [fetchPeriod, hnet]
      exact mkdirParents_noop _ _ (mem_dirs_mkdirParents s (quarterDir yr qtr))
    | some entries =>
      simp only [fetchPeriod, hnet]
      have hdir : quarterDir yr qtr ∈ (List.foldl (extractEntry (quarterDir yr qtr))
          (mkdirParents s (quarterDir yr qtr)) entries).dirs := by
        rw [foldl_extract_dirs]
        exact mem_dirs_mkdirParents s _
      rw [mkdirParents_noop _ _ hdir]
      exact foldl_extract_noop _ _ _ fun e he => foldl_extract_all _ entries _ e he
  · intro t dir n c h
    exact extractEntry_skip dir t (n, c) h

/-- Witness for C1 at a concrete input: re-fetching 2019-Q3 on `netAllOk`
changes nothing, and extracting an entry named `sub.tsv` into a directory
`d` that already holds `d/sub.tsv` (with different content `y`) leaves the
state untouched. -/
theorem fetchPeriod_idempotent_witness :
    (fetchPeriod netAllOk (fetchPeriod netAllOk initState 2019 3).1 2019 3).1
        = (fetchPeriod netAllOk initState 2019 3).1
      ∧ extractEntry (("d").data) demoState ((("sub.tsv").data), (("y").data))
        = demoState :=
  ⟨(fetchPeriod_idempotent netAllOk initState 2019 3).1,
   (fetchPeriod_idempotent netAllOk initState 2019 3).2 demoState (("d").data)
     (("sub.tsv").data) (("y").data) (by decide)⟩

/-- C10: For every period `(yr, qtr)` the fetch creates the local quarter
directory `data/<yr>_<qtr>/source` (with parents, `exist_ok`) before the
retrieval, so after the fetch the directory exists regardless of the network
oracle's answer — in particular when retrieval or archive decoding fails
(`none`), in which case additionally no file at all is written. -/
theorem fetchPeriod_creates_dir (net : Str → Option Archive) (s : FetchState)
    (yr qtr : Nat) :
    quarterDir yr qtr ∈ (fetchPeriod net s yr qtr).1.dirs
      ∧ (net (urlOf yr qtr) = none →
          (fetchPeriod net s yr qtr).1.files = s.files) :=
  ⟨fetchPeriod_dirs_mem net s yr qtr, fetchPeriod_fail_files net s yr qtr⟩

/-- Witness for C10 at a concrete input: on `netNone` (every retrieval fails
to decode) the 2020-Q1 fetch leaves `data/2020_1/source` existing and writes
no file. -/
theorem fetchPeriod_creates_dir_witness :
    quarterDir 2020 1 ∈ (fetchPeriod netNone initState 2020 1).1.dirs
      ∧ (fetchPeriod netNone initState 2020 1).1.files = initState.files :=
  ⟨(fetchPeriod_creates_dir netNone initState 2020 1).1,
   (fetchPeriod_creates_dir netNone initState 2020 1).2 rfl⟩

/-- C8: For every filing period `(yr, qtr)` the fetch computes the remote
URL deterministically as the fixed base
`https://www.sec.gov/files/dera/data/financial-statement-and-notes-data-sets/`
followed by `<yr>q<qtr>_notes.zip` — `urlOf` is a pure function of the
period, so the same period yields the same URL every time — and every fetch
of that period reports exactly this URL in its `url = ...` output line. -/
theorem urlOf_pattern (yr qtr : Nat) (net : Str → Option Archive)
    (s : FetchState) :
    urlOf yr qtr
        = ("https://www.sec.gov/files/dera/data/financial-statement-and-notes-data-sets/").data
          ++ natStr yr ++ ("q").data ++ natStr qtr ++ ("_notes.zip").data
      ∧ ("url = ").data ++ urlOf yr qtr ∈ (fetchPeriod net s yr qtr).2 := by
  constructor
  · have hbase : SEC_URL ++ FSN_PATH
        = ("https://www.sec.gov/files/dera/data/financial-statement-and-notes-data-sets/").data := by
      decide
    unfold urlOf filingName
    rw [← hbase]
    simp [List.append_assoc]
  · show urlLine yr qtr ∈ (fetchPeriod net s yr qtr).2
    unfold fetchPeriod
    cases net (urlOf yr qtr) <;> simp

/-- C2: Partial-failure isolation in the batch.  If archive retrieval for a
period `P` fails to decode (the only recognised failure, handled by the
`except BadZipFile: continue`), then (a) every period of the batch — before
and after `P` alike — is still attempted, printing its progress marker, so
the failure does not abort the enclosing batch, and (b) the files the batch
leaves on disk are exactly the files of the same batch with `P` omitted:
the other periods' file outcomes are independent of `P`'s outcome. -/
theorem fetch_batch_partial_failure (net : Str → Option Archive)
    (pre post : List (Nat × Nat)) (P : Nat × Nat) (s : FetchState)
    (hfail : net (urlOf P.1 P.2) = none) :
    (fetch_filing_data net (pre ++ P :: post) s).state.files
        = (fetch_filing_data net (pre ++ post) s).state.files
      ∧ ∀ p ∈ pre ++ P :: post,
          progressMsg p.1 p.2 ∈ (fetch_filing_data net (pre ++ P :: post) s).output := by
  refine ⟨?_, fun p hp => progress_mem_batch net _ s p hp⟩
  rw [fetch_batch_append net pre (P :: post) s,
    fetch_batch_append net pre post s]
  show (fetch_filing_data net post
      (fetchPeriod net (fetch_filing_data net pre s).state P.1 P.2).1).state.files = _
  exact fetch_batch_files_congr net post _ _
    (fetchPeriod_fail_files net _ P.1 P.2 hfail)

/-- Witness for C2 at a concrete input: on `netNone` the middle period
2020-Q2 fails, yet the batch `[2020-Q1, 2020-Q2, 2020-Q3]` leaves the same
files as `[2020-Q1, 2020-Q3]` and prints every period's progress marker. -/
theorem fetch_batch_partial_failure_witness :
    (fetch_filing_data netNone [(2020, 1), (2020, 2), (2020, 3)] initState).state.files
        = (fetch_filing_data netNone [(2020, 1), (2020, 3)] initState).state.files
      ∧ ∀ p ∈ [((2020 : Nat), (1 : Nat)), (2020, 2), (2020, 3)],
          progressMsg p.1 p.2
            ∈ (fetch_filing_data netNone [(2020, 1), (2020, 2), (2020, 3)] initState).output :=
  fetch_batch_partial_failure netNone [(2020, 1)] [(2020, 3)] (2020, 2) initState rfl

/-- C3: For every start year `Y` and "today" `(dy, dm)` (year and month)
with `dy > Y`, the period enumerator's output is strictly increasing in
`(year, quarter)` lexicographic order with no duplicates, and a pair
`(y, q)` occurs in it exactly when either `y` is a past year in `[Y, dy)`
and `q ∈ [1, 4]`, or `y = dy` and `q ∈ [1, quarter(today)]`; in particular
with `Y = 2014` and today 2021-02-01 it yields exactly the 29 periods
`(2014,1) … (2020,4), (2021,1)`. -/
theorem filing_periods_spec (Y dy dm : Nat) (h1 : Y < dy) (h2 : 1 ≤ dm)
    (h3 : dm ≤ 12) :
    (filing_periods Y dy (quarterOfMonth dm)).Pairwise periodLt
      ∧ (filing_periods Y dy (quarterOfMonth dm)).Nodup
      ∧ (∀ y q : Nat, (y, q) ∈ filing_periods Y dy (quarterOfMonth dm)
          ↔ ((Y ≤ y ∧ y < dy ∧ 1 ≤ q ∧ q ≤ 4)
            ∨ (y = dy ∧ 1 ≤ q ∧ q ≤ quarterOfMonth dm)))
      ∧ filing_periods 2014 2021 (quarterOfMonth 2)
        = [(2014, 1), (2014, 2), (2014, 3), (2014, 4),
           (2015, 1), (2015, 2), (2015, 3), (2015, 4),
           (2016, 1), (2016, 2), (2016, 3), (2016, 4),
           (2017, 1), (2017, 2), (2017, 3), (2017, 4),
           (2018, 1), (2018, 2), (2018, 3), (2018, 4),
           (2019, 1), (2019, 2), (2019, 3), (2019, 4),
           (2020, 1), (2020, 2), (2020, 3), (2020, 4),
           (2021, 1)] := by
  have hpair : (filing_periods Y dy (quarterOfMonth dm)).Pairwise periodLt := by
    unfold filing_periods past_years
    refine List.pairwise_append.mpr
      ⟨pairwise_year_block (dy - Y) Y, pairwise_current_year dy (quarterOfMonth dm), ?_⟩
    intro a ha b hb
    have ha' := (mem_year_block Y (dy - Y) a).mp ha
    simp only [List.mem_map, List.mem_range'_1] at hb
    obtain ⟨q, _, hq⟩ := hb
    have : b.1 = dy := by rw [← hq]
    exact Or.inl (by omega)
  refine ⟨hpair, hpair.imp (fun h => periodLt_ne _ _ h), fun y q => ?_, by decide⟩
  unfold filing_periods past_years
  simp only [List.mem_append, mem_year_block, List.mem_map, List.mem_range'_1]
  constructor
  · rintro (⟨ha, hb, hc, hd⟩ | ⟨q', ⟨hq1, hq2⟩, hq⟩)
    · exact Or.inl ⟨ha, by omega, hc, by omega⟩
    · cases hq
      exact Or.inr ⟨rfl, by omega⟩
  · rintro (⟨ha, hb, hc, hd⟩ | ⟨hy, hq1, hq2⟩)
    · exact Or.inl ⟨ha, by omega, hc, by omega⟩
    · exact Or.inr ⟨q, ⟨hq1, by omega⟩, by rw [hy]⟩

/-- Witness for C3 at the concrete scenario: start year 2014, today
2021-02-01; the enumerator's output is pairwise-increasing and contains
`(2014, 1)`. -/
theorem filing_periods_spec_witness :
    (filing_periods 2014 2021 (quarterOfMonth 2)).Pairwise periodLt
      ∧ ((2014, 1) : Nat × Nat) ∈ filing_periods 2014 2021 (quarterOfMonth 2) :=
  ⟨(filing_periods_spec 2014 2021 2 (by decide) (by decide) (by decide)).1,
   ((filing_periods_spec 2014 2021 2 (by decide) (by decide) (by decide)).2.2.1 2014 1).mpr
     (Or.inl (by decide))⟩

/-- C4 (code bug evaluation): the uploaders do not walk the subtree rooted at
their `root_dir` argument, and the concurrent variant does not attempt
exactly one upload per file.  (a) `upload_folder_to_s3` produces the same
run for any two `folder` arguments, because the walked directory is the
hardcoded literal `./data`; (b) on the concrete filesystem `osWalkDemo`
(where `./other` holds `a.tsv` and `./data` holds `b.tsv`), calling the
uploader with `root_dir = ./other` uploads only `./data/b.tsv` and never
`./other/a.tsv`; (c) the concurrent variant invokes the per-file upload for
`./data/b.tsv` twice, once directly and once submitted. -/
theorem upload_folder_root_dir_bug (osWalk : Str → List (Str × List Str))
    (ok : UploadCall → Bool) (f₁ f₂ bucket : Str) :
    upload_folder_to_s3 osWalk ok f₁ bucket = upload_folder_to_s3 osWalk ok f₂ bucket
      ∧ (upload_folder_to_s3 osWalkDemo (fun _ => true) (("./other").data)
          (("fundamentals-data").data)).calls.map UploadCall.file
        = [("./data/b.tsv").data]
      ∧ (parallel_upload_folder_to_s3 osWalkDemo (fun _ => true) (("./data").data)
          (("fundamentals-data").data)).actions
        = [UploadAction.direct
             (uploadCallFor (("fundamentals-data").data) (("./data/b.tsv").data)),
           UploadAction.submitted
             (uploadCallFor (("fundamentals-data").data) (("./data/b.tsv").data))] :=
  ⟨rfl, by decide, by decide⟩

/-- C6: For every file the sequential uploader walks, the derived remote key
equals the file's path with the first two characters (the fixed-length
`./` root marker of the walked path) removed — `file_path[2:]` — and nothing
else changed: if the file path is `./` followed by `rest`, the key is
exactly `rest`, with no separator normalisation. -/
theorem upload_key_derivation (osWalk : Str → List (Str × List Str))
    (ok : UploadCall → Bool) (folder bucket : Str) :
    ∀ c ∈ (upload_folder_to_s3 osWalk ok folder bucket).calls,
      c.key = c.file.drop 2
        ∧ ∀ rest : Str, c.file = ("./").data ++ rest → c.key = rest := by
  intro c hc
  simp only [upload_folder_to_s3, List.mem_flatMap, List.mem_map] at hc
  obtain ⟨rf, _, file, _, hcall⟩ := hc
  subst hcall
  refine ⟨rfl, fun rest hrest => ?_⟩
  have : (rf.1 ++ slash ++ file) = ("./").data ++ rest := hrest
  show (rf.1 ++ slash ++ file).drop 2 = rest
  rw [this]
  rfl

/-- Witness for C6 at a concrete input: the call built for the walked file
`./data/b.tsv` carries the key `file_path[2:]`, which for the path
`./` ++ `data/b.tsv` is exactly `data/b.tsv`. -/
theorem upload_key_derivation_witness :
    (uploadCallFor (("fundamentals-data").data) (("./data/b.tsv").data)).key
        = (uploadCallFor (("fundamentals-data").data) (("./data/b.tsv").data)).file.drop 2
      ∧ (uploadCallFor (("fundamentals-data").data) (("./data/b.tsv").data)).key
        = ("data/b.tsv").data :=
  have h := upload_key_derivation osWalkDemo (fun _ => true) (("./data").data)
    (("fundamentals-data").data)
    (uploadCallFor (("fundamentals-data").data) (("./data/b.tsv").data)) (by decide)
  ⟨h.1, h.2 (("data/b.tsv").data) (by decide)⟩

/-- C7: In concurrent mode every file found by the walk is submitted as an
independent task to the worker pool exactly once (the submitted tasks are,
in walk order, exactly one upload call per walked file), the pool's size is
bounded at the fixed constant 10 (`ThreadPoolExecutor(max_workers=10)`), and
the driver neither waits for nor collects any task's result: the driver's
submissions, its pool bound and the value returned to the caller (`None`)
are identical under any two upload-outcome oracles, so the overall
operation's success or failure is not observable by the caller. -/
theorem parallel_upload_pool_spec (osWalk : Str → List (Str × List Str))
    (ok : UploadCall → Bool) (folder bucket : Str) :
    (parallel_upload_folder_to_s3 osWalk ok folder bucket).workers = 10
      ∧ submittedCalls (parallel_upload_folder_to_s3 osWalk ok folder bucket).actions
        = (walk_file_paths osWalk).map (uploadCallFor bucket)
      ∧ ∀ ok₁ ok₂ : UploadCall → Bool,
          (parallel_upload_folder_to_s3 osWalk ok₁ folder bucket).actions
              = (parallel_upload_folder_to_s3 osWalk ok₂ folder bucket).actions
            ∧ (parallel_upload_folder_to_s3 osWalk ok₁ folder bucket).workers
              = (parallel_upload_folder_to_s3 osWalk ok₂ folder bucket).workers
            ∧ (parallel_upload_folder_to_s3 osWalk ok₁ folder bucket).value
              = (parallel_upload_folder_to_s3 osWalk ok₂ folder bucket).value := by
  refine ⟨rfl, ?_, fun ok₁ ok₂ => ⟨rfl, rfl, rfl⟩⟩
  rw [parallel_actions_eq osWalk ok folder bucket]
  exact submittedCalls_pairs (walk_file_paths osWalk) bucket

/-- C9: In the concurrent upload variant, for every file found by the walk
the per-file upload is invoked exactly twice: the invocation trace is, per
walked file in walk order, one synchronous `direct` call by the driver loop
immediately followed by one `submitted` task with the same arguments. -/
theorem parallel_upload_double_invocation (osWalk : Str → List (Str × List Str))
    (ok : UploadCall → Bool) (folder bucket : Str) :
    (parallel_upload_folder_to_s3 osWalk ok folder bucket).actions
      = (walk_file_paths osWalk).flatMap fun fp =>
          [UploadAction.direct (uploadCallFor bucket fp),
           UploadAction.submitted (uploadCallFor bucket fp)] :=
  parallel_actions_eq osWalk ok folder bucket

/-- C5 counterexample: no failure is recorded in any run summary count,
because the run has no summary at all.  Concretely, the batch
`[2020-Q1, 2020-Q2]` run on `netFail2020q1` (where exactly the 2020-Q1 body
fails to decode, one failure) and on `netAllOk` (zero failures) return the
identical caller-visible value — `fetch_filing_data` returns Python's
`None` — so no count of failures can be recovered from what the caller
receives; the runs genuinely differ (their printed outputs differ, and the
`got bad zip file` line occurs once versus zero times), which shows the
sequential text output is the only record of the failure. -/
theorem fetch_no_summary_count_counterexample :
    (fetch_filing_data netFail2020q1 [(2020, 1), (2020, 2)] initState).value
        = (fetch_filing_data netAllOk [(2020, 1), (2020, 2)] initState).value
      ∧ ((fetch_filing_data netFail2020q1 [(2020, 1), (2020, 2)] initState).output.count
          badZipMsg) = 1
      ∧ ((fetch_filing_data netAllOk [(2020, 1), (2020, 2)] initState).output.count
          badZipMsg) = 0
      ∧ (fetch_filing_data netFail2020q1 [(2020, 1), (2020, 2)] initState).output
        ≠ (fetch_filing_data netAllOk [(2020, 1), (2020, 2)] initState).output := by
  refine ⟨rfl, by decide, by decide, by decide⟩

/-- C5 as amended: when the fetch for period (2020, 1) receives a response
body that is not a valid archive, no file is written (in particular none
under `data/2020_1/source`), the failure is reported in the run's sequential
text output (`got bad zip file`), and the batch proceeds to attempt every
following period. -/
theorem fetch_bad_archive_amended (net : Str → Option Archive) (s : FetchState)
    (rest : List (Nat × Nat)) (h : net (urlOf 2020 1) = none) :
    (fetchPeriod net s 2020 1).1.files = s.files
      ∧ badZipMsg ∈ (fetchPeriod net s 2020 1).2
      ∧ ∀ p ∈ rest,
          progressMsg p.1 p.2
            ∈ (fetch_filing_data net ((2020, 1) :: rest) s).output := by
  refine ⟨fetchPeriod_fail_files net s 2020 1 h, ?_, fun p hp => ?_⟩
  · unfold fetchPeriod
    rw [h]
    simp
  · exact progress_mem_batch net _ s p (List.mem_cons_of_mem _ hp)

/-- Witness for the amended C5 at a concrete input: on `netNone` the
2020-Q1 fetch writes nothing, prints the bad-zip line, and the batch
`[2020-Q1, 2020-Q2]` still prints 2020-Q2's progress marker. -/
theorem fetch_bad_archive_amended_witness :
    (fetchPeriod netNone initState 2020 1).1.files = initState.files
      ∧ badZipMsg ∈ (fetchPeriod netNone initState 2020 1).2
      ∧ progressMsg 2020 2
        ∈ (fetch_filing_data netNone [(2020, 1), (2020, 2)] initState).output :=
  have h := fetch_bad_archive_amended netNone initState [(2020, 2)] rfl
  ⟨h.1, h.2.1, h.2.2 (2020, 2) (by decide)⟩
